import Mathlib

/-!
Shallow embedding of the retrieval-augmented answer-generation pipeline of the
backend (`src/backend/src/index.ts`): tokenizer, relevance scorer, context
selector, prompt composer, category resolver, security-question upload upsert,
and the batch generation orchestrator.

Modelling conventions:
  - Machine strings are Lean `String` (all relevant inputs are ASCII; the
    JavaScript `toLowerCase` is modelled by the ASCII `Char.toLower`, and the
    regex class `\s` by `Char.isWhitespace`).
  - The SQLite tables are modelled as Lean lists of rows.  A table list holds
    its rows in the order the corresponding `SELECT` of the pipeline returns
    them: `security_questions` in `created_at`-ascending order and
    `knowledge_base` in store order.
  - The JavaScript stable `Array.prototype.sort` with comparator
    `(a, b) => b.score - a.score` is modelled by the stable
    `List.insertionSort` with the relation `b.score ≤ a.score`.
  - The OpenAI chat completion is an external collaborator; one call is
    modelled by an oracle value `Except Unit (Option String)`: `Except.error`
    is a raised service error, `Except.ok none` is a response with no usable
    content (missing choice, message or null content), `Except.ok (some s)` is
    a textual response `s`.
-/

/-- A row of the `knowledge_base` table (`KnowledgeBaseRow` in the source). -/
structure KnowledgeBaseRow where
  id : String
  category : String
  question : String
  answer : String
  created_at : String
  updated_at : String
deriving DecidableEq

/-- A row of the `security_questions` table (`SecurityQuestionRow`). -/
structure SecurityQuestionRow where
  id : String
  text : String
  category : Option String
  created_at : String
deriving DecidableEq

/-- A row of the `generated_answers` table (`GeneratedAnswerRow`). -/
structure GeneratedAnswerRow where
  id : String
  question_id : String
  question_text : String
  answer_text : String
  category : Option String
  created_at : String
deriving DecidableEq

/-- The character class `[a-z0-9]` of the tokenizer regex. -/
def isLowerAlnum (c : Char) : Bool :=
  (decide ('a' ≤ c) && decide (c ≤ 'z')) || (decide ('0' ≤ c) && decide (c ≤ '9'))

/-- `tokenize` (source lines 44-50): lowercase the text, replace every
character outside `[a-z0-9\s]` with a space, split on whitespace runs and keep
the tokens of length greater than 2.  Splitting on single whitespace
characters (`List.splitOnP`) differs from the regex `/\s+/` only by extra
empty fragments, all of which the length filter removes. -/
def tokenize (text : String) : List String :=
  let replaced := text.data.map (fun c =>
    let lc := c.toLower
    if isLowerAlnum lc || lc.isWhitespace then lc else ' ')
  ((replaced.splitOnP Char.isWhitespace).map String.mk).filter
    (fun t => decide (2 < t.length))

/-- The per-entry score of `getRelevantKbEntries` (source lines 60-70): the
question tokens form a set, and each corpus token occurrence that belongs to
that set adds 1. -/
def scoreEntry (questionText : String) (row : KnowledgeBaseRow) : Nat :=
  let qTokens := (tokenize questionText).dedup
  let corpus := row.question ++ " " ++ row.answer
  (tokenize corpus).foldl (fun score t => if t ∈ qTokens then score + 1 else score) 0

/-- The sort relation of the comparator `(a, b) => b.score - a.score`:
descending by score. -/
def scoreGe (a b : KnowledgeBaseRow × Nat) : Prop := b.2 ≤ a.2

instance : DecidableRel scoreGe :=
  fun a b => inferInstanceAs (Decidable (b.2 ≤ a.2))

instance : IsTotal (KnowledgeBaseRow × Nat) scoreGe :=
  ⟨fun a b => Nat.le_total b.2 a.2⟩

instance : IsTrans (KnowledgeBaseRow × Nat) scoreGe :=
  ⟨fun _ _ _ hab hbc => le_trans hbc hab⟩

/-- `getRelevantKbEntries` (source lines 52-78): score every entry of the
knowledge base, keep the entries with positive score, sort them by descending
score with the stable sort of the JavaScript runtime, and truncate to
`maxEntries` (the source default is 5, which every caller uses). -/
def getRelevantKbEntries (questionText : String) (allKb : List KnowledgeBaseRow)
    (maxEntries : Nat) : List (KnowledgeBaseRow × Nat) :=
  let scored := allKb.map (fun row => (row, scoreEntry questionText row))
  ((scored.filter (fun s => decide (0 < s.2))).insertionSort scoreGe).take maxEntries

/-- Tokens of any fragment produced by `splitOnP` come from the input list and
do not satisfy the splitting predicate. -/
theorem mem_of_mem_splitOnP {p : Char → Bool} :
    ∀ (l : List Char), ∀ g ∈ l.splitOnP p, ∀ c ∈ g, c ∈ l ∧ p c = false := by
  intro l
  induction l with
  | nil =>
    intro g hg c hc
    rw [List.splitOnP_nil] at hg
    simp only [List.mem_singleton] at hg
    subst hg
    exact absurd hc (List.not_mem_nil c)
  | cons a l ih =>
    intro g hg c hc
    rw [List.splitOnP_cons] at hg
    by_cases hpa : p a = true
    · rw [if_pos hpa] at hg
      rcases List.mem_cons.mp hg with hnil | hrest
      · subst hnil; exact absurd hc (List.not_mem_nil c)
      · rcases ih g hrest c hc with ⟨hmem, hpc⟩
        exact ⟨List.mem_cons_of_mem a hmem, hpc⟩
    · rw [if_neg hpa] at hg
      rcases hsplit : l.splitOnP p with _ | ⟨g0, gs⟩
      · exact absurd hsplit (List.splitOnP_ne_nil p l)
      · rw [hsplit, List.modifyHead_cons] at hg
        rcases List.mem_cons.mp hg with hhead | hrest
        · subst hhead
          rcases List.mem_cons.mp hc with hca | hcg
          · subst hca
            exact ⟨List.mem_cons_self c l, Bool.eq_false_iff.mpr hpa⟩
          · have hg0 : g0 ∈ l.splitOnP p := by rw [hsplit]; exact List.mem_cons_self g0 gs
            rcases ih g0 hg0 c hcg with ⟨hmem, hpc⟩
            exact ⟨List.mem_cons_of_mem a hmem, hpc⟩
        · have hgs : g ∈ l.splitOnP p := by rw [hsplit]; exact List.mem_cons_of_mem g0 hrest
          rcases ih g hgs c hc with ⟨hmem, hpc⟩
          exact ⟨List.mem_cons_of_mem a hmem, hpc⟩

/-- Every character of a token produced by `tokenize` is a lowercase
alphanumeric character. -/
theorem tokenize_chars_lowerAlnum (s : String) :
    ∀ t ∈ tokenize s, ∀ c ∈ t.data, isLowerAlnum c = true := by
  intro t ht c hc
  unfold tokenize at ht
  rcases (List.mem_filter.mp ht) with ⟨hmap, _⟩
  rcases List.mem_map.mp hmap with ⟨g, hg, hgt⟩
  subst hgt
  rcases mem_of_mem_splitOnP _ g hg c hc with ⟨hmem, hws⟩
  rcases List.mem_map.mp hmem with ⟨c0, _, hc0⟩
  by_cases hk : isLowerAlnum c0.toLower || c0.toLower.isWhitespace
  · rw [if_pos hk] at hc0
    subst hc0
    rcases Bool.or_eq_true_iff.mp hk with h | h
    · exact h
    · rw [h] at hws; exact absurd hws (by simp)
  · rw [if_neg hk] at hc0
    subst hc0
    exact absurd hws (by simp [Char.isWhitespace])

/-- Every token produced by `tokenize` has length greater than 2. -/
theorem tokenize_length (s : String) : ∀ t ∈ tokenize s, 2 < t.length := by
  intro t ht
  unfold tokenize at ht
  rcases (List.mem_filter.mp ht) with ⟨_, hlen⟩
  exact of_decide_eq_true hlen

/-- The accumulator form of the scoring loop counts filtered elements. -/
theorem foldl_count_filter (P : String → Prop) [DecidablePred P] :
    ∀ (l : List String) (n : Nat),
      l.foldl (fun score t => if P t then score + 1 else score) n
        = n + (l.filter (fun t => decide (P t))).length := by
  intro l
  induction l with
  | nil => intro n; simp
  | cons t l ih =>
    intro n
    by_cases h : P t
    · simp [List.foldl_cons, List.filter_cons, h, ih]
      omega
    · simp [List.foldl_cons, List.filter_cons, h, ih]

/-- A knowledge-base entry whose corpus repeats the token "encrypt" twice and
the token "data" once, for the scorer example of the specification. -/
def demoScorerRow : KnowledgeBaseRow :=
  { id := "kb1", category := "Security", question := "encrypt policy",
    answer := "We encrypt data", created_at := "t0", updated_at := "t0" }

/-- C4: the relevance score of an entry equals the number of token occurrences
of the entry corpus (the stored question concatenated with the stored answer)
that belong to the set of distinct question tokens; questions with the same
distinct-token set score identically (repeated question words do not inflate
the score); and a corpus repeating "encrypt" twice and "data" once scores 3
against a question containing both words. -/
theorem scoreEntry_spec :
    (∀ (q : String) (row : KnowledgeBaseRow),
      scoreEntry q row
        = ((tokenize (row.question ++ " " ++ row.answer)).filter
            (fun t => decide (t ∈ (tokenize q).dedup))).length)
    ∧ (∀ (q q' : String) (row : KnowledgeBaseRow),
        (tokenize q).dedup = (tokenize q').dedup → scoreEntry q row = scoreEntry q' row)
    ∧ scoreEntry "Do you encrypt data at rest?" demoScorerRow = 3 := by
  refine ⟨?_, ?_, by decide⟩
  · intro q row
    unfold scoreEntry
    simp only []
    exact foldl_count_filter (fun t => t ∈ (tokenize q).dedup) _ 0 |>.trans (by simp)
  · intro q q' row h
    unfold scoreEntry
    rw [h]

/-- Witness for the score-invariance component of `scoreEntry_spec`: the
questions "encrypt encrypt data" and "encrypt data" have the same distinct
token set, hence the same score. -/
theorem scoreEntry_spec_witness :
    (tokenize "encrypt encrypt data").dedup = (tokenize "encrypt data").dedup
    ∧ scoreEntry "encrypt encrypt data" demoScorerRow
        = scoreEntry "encrypt data" demoScorerRow :=
  ⟨by decide, scoreEntry_spec.2.1 "encrypt encrypt data" "encrypt data" demoScorerRow (by decide)⟩

/-- C6: every token of `tokenize` has length greater than 2 and consists of
lowercase alphanumeric characters only; the specification examples hold, and a
2-letter word such as "to" is dropped. -/
theorem tokenize_contract :
    (∀ s : String, ∀ t ∈ tokenize s, 2 < t.length ∧ ∀ c ∈ t.data, isLowerAlnum c = true)
    ∧ tokenize "The User\x27s Question!" = ["the", "user", "question"]
    ∧ tokenize "Need to reply" = ["need", "reply"] :=
  ⟨fun s t ht => ⟨tokenize_length s t ht, tokenize_chars_lowerAlnum s t ht⟩,
    by decide, by decide⟩

/-- Witness for `tokenize_contract` at the token "the" of the example input. -/
theorem tokenize_contract_witness :
    ("the" ∈ tokenize "The User\x27s Question!")
    ∧ (2 < ("the" : String).length
        ∧ ∀ c ∈ ("the" : String).data, isLowerAlnum c = true) :=
  ⟨by decide, tokenize_contract.1 "The User\x27s Question!" "the" (by decide)⟩

/-- Selector example entry with score 5 against the question "alpha". -/
def demoKb1 : KnowledgeBaseRow :=
  { id := "k1", category := "Access Management", question := "alpha alpha",
    answer := "alpha alpha alpha", created_at := "t1", updated_at := "t1" }

/-- Selector example entry with score 5, stored after `demoKb1`. -/
def demoKb2 : KnowledgeBaseRow :=
  { id := "k2", category := "Privacy", question := "alpha",
    answer := "alpha alpha alpha alpha", created_at := "t2", updated_at := "t2" }

/-- Selector example entry with score 3. -/
def demoKb3 : KnowledgeBaseRow :=
  { id := "k3", category := "Network", question := "alpha alpha alpha",
    answer := "zzz", created_at := "t3", updated_at := "t3" }

/-- Selector example entry with score 0. -/
def demoKb4 : KnowledgeBaseRow :=
  { id := "k4", category := "Network", question := "zzz",
    answer := "yyy", created_at := "t4", updated_at := "t4" }

/-- Selector example entry with score 2. -/
def demoKb5 : KnowledgeBaseRow :=
  { id := "k5", category := "Privacy", question := "alpha",
    answer := "alpha", created_at := "t5", updated_at := "t5" }

/-- Selector example entry with score 0. -/
def demoKb6 : KnowledgeBaseRow :=
  { id := "k6", category := "Privacy", question := "qqq",
    answer := "rrr", created_at := "t6", updated_at := "t6" }

/-- Selector example entry with score 4. -/
def demoKb7 : KnowledgeBaseRow :=
  { id := "k7", category := "Encryption", question := "alpha alpha",
    answer := "alpha alpha", created_at := "t7", updated_at := "t7" }

/-- A knowledge base of 7 entries whose scores against the question "alpha"
are [5, 5, 3, 0, 2, 0, 4], in store order. -/
def demoSelectorKb : List KnowledgeBaseRow :=
  [demoKb1, demoKb2, demoKb3, demoKb4, demoKb5, demoKb6, demoKb7]

/-- C5: the context selector returns only entries of the knowledge base with
their positive scores, at most `maxEntries` of them, in descending score
order; on the 7-entry example with scores [5, 5, 3, 0, 2, 0, 4] and
`maxEntries = 5` it returns the five nonzero entries in score order
[5, 5, 4, 3, 2], the two score-5 entries keeping their original relative
order. -/
theorem getRelevantKbEntries_spec :
    (∀ (q : String) (kb : List KnowledgeBaseRow) (m : Nat),
      ∀ p ∈ getRelevantKbEntries q kb m,
        0 < p.2 ∧ p.1 ∈ kb ∧ p.2 = scoreEntry q p.1)
    ∧ (∀ (q : String) (kb : List KnowledgeBaseRow) (m : Nat),
        (getRelevantKbEntries q kb m).length ≤ m)
    ∧ (∀ (q : String) (kb : List KnowledgeBaseRow) (m : Nat),
        (getRelevantKbEntries q kb m).Pairwise scoreGe)
    ∧ getRelevantKbEntries "alpha" demoSelectorKb 5
        = [(demoKb1, 5), (demoKb2, 5), (demoKb7, 4), (demoKb3, 3), (demoKb5, 2)] := by
  refine ⟨?_, ?_, ?_, by decide⟩
  · intro q kb m p hp
    unfold getRelevantKbEntries at hp
    have hsorted := List.mem_of_mem_take hp
    have hfilter := ((List.perm_insertionSort scoreGe _).mem_iff).mp hsorted
    rcases List.mem_filter.mp hfilter with ⟨hscored, hpos⟩
    rcases List.mem_map.mp hscored with ⟨row, hrow, hprow⟩
    subst hprow
    exact ⟨of_decide_eq_true hpos, hrow, rfl⟩
  · intro q kb m
    unfold getRelevantKbEntries
    exact List.length_take_le m _
  · intro q kb m
    unfold getRelevantKbEntries
    exact ((List.sorted_insertionSort scoreGe _).sublist (List.take_sublist m _))

/-- Witness for `getRelevantKbEntries_spec` at the top pair of the example. -/
theorem getRelevantKbEntries_spec_witness :
    ((demoKb1, 5) ∈ getRelevantKbEntries "alpha" demoSelectorKb 5)
    ∧ (0 < (demoKb1, 5).2 ∧ (demoKb1, 5).1 ∈ demoSelectorKb
        ∧ (demoKb1, 5).2 = scoreEntry "alpha" (demoKb1, 5).1) :=
  ⟨by decide, getRelevantKbEntries_spec.1 "alpha" demoSelectorKb 5 (demoKb1, 5) (by decide)⟩

/-- Left part of the JavaScript `String.prototype.trim`: drop leading
whitespace. -/
def trimLeftChars (l : List Char) : List Char := l.dropWhile Char.isWhitespace

/-- Right part of the JavaScript `String.prototype.trim`: drop trailing
whitespace. -/
def trimRightChars (l : List Char) : List Char :=
  (l.reverse.dropWhile Char.isWhitespace).reverse

/-- The JavaScript `String.prototype.trim` on ASCII text: remove leading and
trailing whitespace. -/
def jsTrim (s : String) : String := String.mk (trimRightChars (trimLeftChars s.data))

/-- The exact grounding-failure sentence of the pipeline (source line 342 and
the prompt templates). -/
def fallbackSentence : String := "No information available in the knowledge base."

/-- One rendered context entry of the user prompt (source lines 305-310). -/
def contextBlocks (context : List KnowledgeBaseRow) : String :=
  String.intercalate "\n\n" (context.map (fun kb =>
    "- [" ++ kb.id ++ "] (" ++ kb.category ++ ") Q: " ++ kb.question
      ++ "\n  A: " ++ kb.answer))

/-- The system prompt template literal (source lines 312-318), before the
trailing `.trim()`. -/
def systemPromptRaw : String :=
  "\n    You are an information security analyst answering questionnaire questions using ONLY the provided knowledge base.\n    If the knowledge base does not contain sufficient information to answer a question, respond exactly with:\n    \"No information available in the knowledge base.\"\n    Do not invent policies or controls that are not in the context.\n    Answer in a concise but complete sentence or short paragraph as appropriate.\n    "

/-- `systemPrompt` of `generateAnswerFromLlm`. -/
def systemPrompt : String := jsTrim systemPromptRaw

/-- The user prompt template up to the embedded question text. -/
def userHead : String := "\n    Security questionnaire question:\n    \""

/-- The user prompt template between the question text and the context
block. -/
def userMid : String := "\"\n\n    Relevant knowledge base entries:\n    "

/-- The user prompt template after the context block, before the trailing
`.trim()`. -/
def userTail : String :=
  "\n\n    Using ONLY the information above, answer the question. If nothing is relevant, reply exactly with:\n    \"No information available in the knowledge base.\"\n    "

/-- The user prompt template literal (source lines 320-329) before the
trailing `.trim()`; an empty context block renders as the placeholder
"(none found)" (the JavaScript `contextBlocks || "(none found)"`). -/
def userPromptRaw (question : SecurityQuestionRow)
    (context : List KnowledgeBaseRow) : String :=
  userHead ++ question.text ++ userMid
    ++ (if contextBlocks context = "" then "(none found)" else contextBlocks context)
    ++ userTail

/-- `userPrompt` of `generateAnswerFromLlm`. -/
def userPrompt (question : SecurityQuestionRow)
    (context : List KnowledgeBaseRow) : String :=
  jsTrim (userPromptRaw question context)

/-- The result record `{ answerText, category }` of `generateAnswerFromLlm`. -/
structure LlmOutcome where
  answerText : String
  category : Option String
deriving DecidableEq

/-- The pure assembly part of `generateAnswerFromLlm` (source lines 340-346):
`content` is the optional message content of the completion response; a
missing content falls back to the grounding sentence, a present content is
trimmed; the category is the first context entry category, else the question
category, else null. -/
def generateAnswerFromLlm (question : SecurityQuestionRow)
    (context : List KnowledgeBaseRow) (content : Option String) : LlmOutcome :=
  let answerText :=
    match content with
    | some s => jsTrim s
    | none => fallbackSentence
  let category :=
    match context.head? with
    | some kb => some kb.category
    | none => question.category
  { answerText := answerText, category := category }

/-- The string `needle` occurs as a contiguous substring of `hay`. -/
def containsSubstr (needle hay : String) : Prop :=
  ∃ pre post : List Char, hay.data = pre ++ needle.data ++ post

/-- A concrete security question used by witnesses and counterexamples. -/
def demoQuestion : SecurityQuestionRow :=
  { id := "q1", text := "Do you encrypt data at rest?",
    category := some "Privacy", created_at := "t0" }

/-- `dropWhile` over an append stops inside the left part when the left part
retains an element. -/
theorem dropWhile_append_left {α : Type} {p : α → Bool} {a b : List α}
    (h : a.dropWhile p ≠ []) :
    (a ++ b).dropWhile p = a.dropWhile p ++ b := by
  rw [List.dropWhile_append, if_neg]
  simp only [List.isEmpty_iff]
  exact h

/-- Trimming on the left of an append with a left part that retains an
element. -/
theorem trimLeft_append (a b : List Char)
    (h : a.dropWhile Char.isWhitespace ≠ []) :
    trimLeftChars (a ++ b) = a.dropWhile Char.isWhitespace ++ b :=
  dropWhile_append_left h

/-- Trimming on the right of an append with a right part that retains an
element. -/
theorem trimRight_append (a b : List Char)
    (h : b.reverse.dropWhile Char.isWhitespace ≠ []) :
    trimRightChars (a ++ b) = a ++ trimRightChars b := by
  unfold trimRightChars
  rw [List.reverse_append, dropWhile_append_left h, List.reverse_append,
    List.reverse_reverse]

set_option maxRecDepth 4096 in
/-- Closed form of the trimmed user prompt for an arbitrary question and
context. -/
theorem userPrompt_data_eq (q : SecurityQuestionRow) (ctx : List KnowledgeBaseRow) :
    (userPrompt q ctx).data
      = ("Security questionnaire question:\n    \"" : String).data
        ++ (q.text.data
        ++ (userMid.data
        ++ ((if contextBlocks ctx = "" then "(none found)" else contextBlocks ctx).data
        ++ ("\n\n    Using ONLY the information above, answer the question. If nothing is relevant, reply exactly with:\n    \"No information available in the knowledge base.\"" : String).data))) := by
  show (jsTrim (userPromptRaw q ctx)).data = _
  unfold jsTrim userPromptRaw
  show trimRightChars (trimLeftChars _) = _
  simp only [String.data_append, List.append_assoc]
  rw [trimLeft_append _ _ (by decide)]
  rw [show (userHead.data.dropWhile Char.isWhitespace)
        ++ (q.text.data ++ (userMid.data
        ++ ((if contextBlocks ctx = "" then "(none found)" else contextBlocks ctx).data
        ++ userTail.data)))
      = ((userHead.data.dropWhile Char.isWhitespace)
        ++ (q.text.data ++ (userMid.data
        ++ (if contextBlocks ctx = "" then "(none found)" else contextBlocks ctx).data)))
        ++ userTail.data from by simp [List.append_assoc]]
  rw [trimRight_append _ _ (by decide)]
  rw [show trimRightChars userTail.data
      = ("\n\n    Using ONLY the information above, answer the question. If nothing is relevant, reply exactly with:\n    \"No information available in the knowledge base.\"" : String).data
    from by decide]
  rw [show userHead.data.dropWhile Char.isWhitespace
      = ("Security questionnaire question:\n    \"" : String).data from by decide]
  simp [List.append_assoc]

/-- C7: the category of a generated answer is the category of the
highest-ranked context entry when the selection is non-empty, regardless of
the question category; with an empty selection it is the question category
when set and null otherwise. -/
theorem category_resolution :
    (∀ (q : SecurityQuestionRow) (kb : KnowledgeBaseRow)
        (rest : List KnowledgeBaseRow) (content : Option String),
      (generateAnswerFromLlm q (kb :: rest) content).category = some kb.category)
    ∧ (∀ (q : SecurityQuestionRow) (content : Option String),
      (generateAnswerFromLlm q [] content).category = q.category) :=
  ⟨fun _ _ _ _ => rfl, fun _ _ => rfl⟩

set_option maxRecDepth 2048 in
/-- C3 counterexample: an empty-string response from the generation service
is kept as an empty `answer_text`; it is not replaced by the grounding
fallback sentence, contrary to the claim that any unusable output yields the
fallback sentence. -/
theorem answer_text_empty_output_counterexample :
    (generateAnswerFromLlm demoQuestion [] (some "")).answerText = ""
    ∧ ("" : String) ≠ fallbackSentence :=
  ⟨rfl, by decide⟩

set_option maxRecDepth 4096 in
/-- C3 amended: a response equal to the exact grounding sentence passes
through to `answer_text` unmodified; an absent response content (no choice,
no message or null content) yields the fallback sentence; an empty-string
response yields an empty `answer_text` rather than the fallback sentence. -/
theorem answer_text_assembly (q : SecurityQuestionRow) (ctx : List KnowledgeBaseRow) :
    (generateAnswerFromLlm q ctx (some fallbackSentence)).answerText = fallbackSentence
    ∧ (generateAnswerFromLlm q ctx none).answerText = fallbackSentence
    ∧ (generateAnswerFromLlm q ctx (some "")).answerText = "" := by
  refine ⟨?_, rfl, rfl⟩
  show jsTrim fallbackSentence = fallbackSentence
  decide

set_option maxRecDepth 8192 in
/-- C8: the system prompt and every composed user prompt embed the literal
grounding fallback sentence, and with an empty context selection the user
prompt renders the explicit placeholder "(none found)" instead of an empty
context block. -/
theorem prompt_completeness (q : SecurityQuestionRow) (ctx : List KnowledgeBaseRow) :
    containsSubstr fallbackSentence systemPrompt
    ∧ containsSubstr fallbackSentence (userPrompt q ctx)
    ∧ (ctx = [] → containsSubstr "(none found)" (userPrompt q ctx)) := by
  refine ⟨?_, ?_, ?_⟩
  · exact ⟨("You are an information security analyst answering questionnaire questions using ONLY the provided knowledge base.\n    If the knowledge base does not contain sufficient information to answer a question, respond exactly with:\n    \"" : String).data,
      ("\"\n    Do not invent policies or controls that are not in the context.\n    Answer in a concise but complete sentence or short paragraph as appropriate." : String).data,
      by decide⟩
  · refine ⟨("Security questionnaire question:\n    \"" : String).data
        ++ (q.text.data ++ (userMid.data
        ++ ((if contextBlocks ctx = "" then "(none found)" else contextBlocks ctx).data
        ++ ("\n\n    Using ONLY the information above, answer the question. If nothing is relevant, reply exactly with:\n    \"" : String).data))),
      ['\"'], ?_⟩
    rw [userPrompt_data_eq]
    rw [show ("\n\n    Using ONLY the information above, answer the question. If nothing is relevant, reply exactly with:\n    \"No information available in the knowledge base.\"" : String).data
        = ("\n\n    Using ONLY the information above, answer the question. If nothing is relevant, reply exactly with:\n    \"" : String).data
          ++ fallbackSentence.data ++ ['\"'] from by decide]
    simp [List.append_assoc]
  · intro hctx
    subst hctx
    refine ⟨("Security questionnaire question:\n    \"" : String).data
        ++ (q.text.data ++ userMid.data),
      ("\n\n    Using ONLY the information above, answer the question. If nothing is relevant, reply exactly with:\n    \"No information available in the knowledge base.\"" : String).data, ?_⟩
    rw [userPrompt_data_eq]
    rw [show (if contextBlocks ([] : List KnowledgeBaseRow) = ""
          then ("(none found)" : String) else contextBlocks []) = "(none found)"
      from rfl]
    simp [List.append_assoc]

/-- Witness for `prompt_completeness` with an empty context selection. -/
theorem prompt_completeness_witness :
    containsSubstr fallbackSentence (userPrompt demoQuestion [])
    ∧ containsSubstr "(none found)" (userPrompt demoQuestion []) :=
  ⟨(prompt_completeness demoQuestion []).2.1,
    (prompt_completeness demoQuestion []).2.2 rfl⟩

/-- One element of the request body of `POST /api/questions/upload`. -/
structure UploadQuestion where
  id : String
  text : String
deriving DecidableEq

/-- The upsert statement of `POST /api/questions/upload` (source lines
256-272): insert the question with a null category, and on an id conflict
update the stored text and category to the uploaded values (`excluded.text`
and the null `excluded.category`); `created_at` is not part of the update
set. -/
def upsertSecurityQuestion (store : List SecurityQuestionRow)
    (q : UploadQuestion) (now : String) : List SecurityQuestionRow :=
  if store.any (fun r => r.id == q.id) then
    store.map (fun r =>
      if r.id == q.id then
        { id := r.id, text := q.text, category := none, created_at := r.created_at }
      else r)
  else
    store ++ [{ id := q.id, text := q.text, category := none, created_at := now }]

/-- The transaction of `POST /api/questions/upload`: upsert each uploaded
question in order. -/
def uploadQuestions (store : List SecurityQuestionRow)
    (batch : List UploadQuestion) (now : String) : List SecurityQuestionRow :=
  batch.foldl (fun s q => upsertSecurityQuestion s q now) store

/-- C9 counterexample: uploading a batch whose entry reuses the id of a
stored question overwrites the stored text (and resets the category to null),
so a stored `SecurityQuestion` is not immutable under the exposed surface. -/
theorem question_upload_counterexample :
    (uploadQuestions
        [{ id := "q1", text := "old text", category := some "Privacy", created_at := "t0" }]
        [{ id := "q1", text := "new text" }] "t1")
      = [{ id := "q1", text := "new text", category := none, created_at := "t0" }]
    ∧ ("new text" : String) ≠ "old text" :=
  ⟨rfl, by decide⟩

/-- C9 amended: uploading a batch entry whose id already exists does not
insert a row; it rewrites every stored row with that id to carry the uploaded
text and a null category while keeping its id and `created_at`; rows with
other ids are unchanged. -/
theorem question_upload_upsert (store : List SecurityQuestionRow)
    (q : UploadQuestion) (now : String)
    (h : store.any (fun r => r.id == q.id) = true) :
    uploadQuestions store [q] now
      = store.map (fun r =>
          if r.id == q.id then
            { id := r.id, text := q.text, category := none, created_at := r.created_at }
          else r) := by
  show upsertSecurityQuestion store q now = _
  unfold upsertSecurityQuestion
  rw [if_pos h]

/-- Witness for `question_upload_upsert` on a two-row store. -/
theorem question_upload_upsert_witness :
    (([{ id := "q1", text := "old text", category := some "Privacy", created_at := "t0" },
       { id := "q2", text := "other", category := none, created_at := "t0" }]
        : List SecurityQuestionRow).any
        (fun r => r.id == ("q1" : String)) = true)
    ∧ uploadQuestions
        [{ id := "q1", text := "old text", category := some "Privacy", created_at := "t0" },
         { id := "q2", text := "other", category := none, created_at := "t0" }]
        [{ id := "q1", text := "new text" }] "t1"
      = [{ id := "q1", text := "new text", category := none, created_at := "t0" },
         { id := "q2", text := "other", category := none, created_at := "t0" }] := by
  refine ⟨by decide, ?_⟩
  rw [question_upload_upsert _ _ _ (by decide)]
  decide

/-- The whole database state of the backend.  `security_questions` holds its
rows in `created_at`-ascending order (the order of the orchestrator query),
`knowledge_base` in store order. -/
structure Db where
  knowledge_base : List KnowledgeBaseRow
  security_questions : List SecurityQuestionRow
  generated_answers : List GeneratedAnswerRow
deriving DecidableEq

/-- The failure modes of `POST /api/answers/generate`. -/
inductive GenError where
  | configurationError
  | emptyInputError
  | generationServiceError
deriving DecidableEq

/-- The `generated_answers` row built and inserted by one loop iteration of
`POST /api/answers/generate` (source lines 380-396): select the relevant
context, assemble the answer and category, and mint the identifier for call
number `k`. -/
def answerRowFor (kb : List KnowledgeBaseRow) (mintId : Nat → String)
    (now : String) (q : SecurityQuestionRow) (k : Nat)
    (content : Option String) : GeneratedAnswerRow :=
  let relevant := (getRelevantKbEntries q.text kb 5).map Prod.fst
  let result := generateAnswerFromLlm q relevant content
  { id := mintId k, question_id := q.id, question_text := q.text,
    answer_text := result.answerText, category := result.category,
    created_at := now }

/-- The per-question loop of `POST /api/answers/generate` (source lines
379-399).  `llm k` is the outcome of the k-th generation-service call of the
run, `mintId k` the k-th minted identifier (`crypto.randomUUID`), `now` the
timestamp read once before the loop, `count` the running success counter and
`acc` the `generated_answers` rows persisted so far.  A service error stops
the loop at once, keeping the rows already persisted. -/
def processQuestions (kb : List KnowledgeBaseRow)
    (llm : Nat → Except Unit (Option String)) (mintId : Nat → String)
    (now : String) :
    List SecurityQuestionRow → Nat → List GeneratedAnswerRow →
      List GeneratedAnswerRow × Except Unit Nat
  | [], count, acc => (acc, Except.ok count)
  | q :: rest, count, acc =>
    match llm count with
    | Except.error e => (acc, Except.error e)
    | Except.ok content =>
      processQuestions kb llm mintId now rest (count + 1)
        (acc ++ [answerRowFor kb mintId now q count content])

/-- The orchestrator of `POST /api/answers/generate` (source lines 352-408):
require a configured credential, require at least one question, delete every
existing generated answer, then run the per-question loop; the resulting
state keeps whatever the loop persisted, also on a mid-run failure. -/
def generateRun (db : Db) (apiKeyConfigured : Bool)
    (llm : Nat → Except Unit (Option String)) (mintId : Nat → String)
    (now : String) : Db × Except GenError Nat :=
  if apiKeyConfigured then
    let questions := db.security_questions
    if questions.isEmpty then
      (db, Except.error GenError.emptyInputError)
    else
      let outcome := processQuestions db.knowledge_base llm mintId now questions 0 []
      ({ db with generated_answers := outcome.1 },
        match outcome.2 with
        | Except.ok n => Except.ok n
        | Except.error _ => Except.error GenError.generationServiceError)
  else
    (db, Except.error GenError.configurationError)

/-- Step equation of the loop for a successful generation call. -/
theorem processQuestions_cons_ok {kb : List KnowledgeBaseRow}
    {llm : Nat → Except Unit (Option String)} {mintId : Nat → String}
    {now : String} {q : SecurityQuestionRow} {rest : List SecurityQuestionRow}
    {count : Nat} {acc : List GeneratedAnswerRow} {content : Option String}
    (hc : llm count = Except.ok content) :
    processQuestions kb llm mintId now (q :: rest) count acc
      = processQuestions kb llm mintId now rest (count + 1)
          (acc ++ [answerRowFor kb mintId now q count content]) := by
  simp only [processQuestions, hc]

/-- Step equation of the loop for a failing generation call. -/
theorem processQuestions_cons_err {kb : List KnowledgeBaseRow}
    {llm : Nat → Except Unit (Option String)} {mintId : Nat → String}
    {now : String} {q : SecurityQuestionRow} {rest : List SecurityQuestionRow}
    {count : Nat} {acc : List GeneratedAnswerRow} {e : Unit}
    (hc : llm count = Except.error e) :
    processQuestions kb llm mintId now (q :: rest) count acc
      = (acc, Except.error e) := by
  unfold processQuestions
  rw [hc]

/-- When every generation call succeeds, the loop appends one row per
question: the produced rows reference the questions in order, carry the
minted identifiers of calls `count`, `count + 1`, ... in order and all carry
the timestamp `now`; the reported count is the number of questions. -/
theorem processQuestions_ok_spec (kb : List KnowledgeBaseRow)
    (llm : Nat → Except Unit (Option String)) (mintId : Nat → String)
    (now : String) (hsucc : ∀ k, ∃ c, llm k = Except.ok c) :
    ∀ (qs : List SecurityQuestionRow) (count : Nat) (acc : List GeneratedAnswerRow),
      ∃ rows : List GeneratedAnswerRow,
        processQuestions kb llm mintId now qs count acc
            = (acc ++ rows, Except.ok (count + qs.length))
        ∧ rows.map GeneratedAnswerRow.question_id = qs.map SecurityQuestionRow.id
        ∧ rows.map GeneratedAnswerRow.id
            = (List.range qs.length).map (fun i => mintId (count + i))
        ∧ ∀ r ∈ rows, r.created_at = now := by
  intro qs
  induction qs with
  | nil =>
    intro count acc
    exact ⟨[], by simp [processQuestions], rfl, rfl, by simp⟩
  | cons q rest ih =>
    intro count acc
    rcases hsucc count with ⟨c, hc⟩
    rcases ih (count + 1) (acc ++ [answerRowFor kb mintId now q count c])
      with ⟨rows', h1, h2, h3, h4⟩
    refine ⟨answerRowFor kb mintId now q count c :: rows', ?_, ?_, ?_, ?_⟩
    · rw [processQuestions_cons_ok hc, h1]
      rw [List.append_assoc, List.singleton_append, List.length_cons]
      rw [show count + 1 + rest.length = count + (rest.length + 1) from by omega]
    · rw [List.map_cons, h2, List.map_cons]
      rfl
    · rw [List.map_cons, h3, List.length_cons, List.range_succ_eq_map,
        List.map_cons, List.map_map]
      refine congrArg₂ _ rfl ?_
      refine List.map_congr_left (fun i _ => ?_)
      show mintId (count + 1 + i) = mintId (count + (i + 1))
      rw [show count + 1 + i = count + (i + 1) from by omega]
    · intro r hr
      rcases List.mem_cons.mp hr with hr | hr
      · subst hr; rfl
      · exact h4 r hr

/-- When the generation call for the question at position `j` fails after `j`
successful calls, the loop stops with the error, having persisted exactly the
rows for the first `j` questions. -/
theorem processQuestions_fail_spec (kb : List KnowledgeBaseRow)
    (llm : Nat → Except Unit (Option String)) (mintId : Nat → String)
    (now : String) :
    ∀ (qs : List SecurityQuestionRow) (j count : Nat) (acc : List GeneratedAnswerRow),
      j < qs.length →
      (∀ k, k < j → ∃ c, llm (count + k) = Except.ok c) →
      llm (count + j) = Except.error () →
      (processQuestions kb llm mintId now qs count acc).1.map GeneratedAnswerRow.question_id
          = acc.map GeneratedAnswerRow.question_id
            ++ (qs.take j).map SecurityQuestionRow.id
      ∧ (processQuestions kb llm mintId now qs count acc).2 = Except.error () := by
  intro qs
  induction qs with
  | nil =>
    intro j count acc hj
    exact absurd hj (by simp)
  | cons q rest ih =>
    intro j count acc hj hok hfail
    rcases j with _ | j'
    · have hf : llm count = Except.error () := by simpa using hfail
      rw [processQuestions_cons_err hf]
      exact ⟨by simp, rfl⟩
    · rcases hok 0 (Nat.succ_pos j') with ⟨c, hc⟩
      have hc' : llm count = Except.ok c := by simpa using hc
      rw [processQuestions_cons_ok hc']
      have hrec := ih j' (count + 1) (acc ++ [answerRowFor kb mintId now q count c])
        (by simpa using Nat.lt_of_succ_lt_succ hj)
        (fun k hk => by
          rcases hok (k + 1) (Nat.succ_lt_succ hk) with ⟨c', hc''⟩
          exact ⟨c', by rw [show count + 1 + k = count + (k + 1) from by omega]; exact hc''⟩)
        (by rw [show count + 1 + j' = count + (j' + 1) from by omega]; exact hfail)
      rcases hrec with ⟨hmap, herr⟩
      refine ⟨?_, herr⟩
      rw [hmap, List.map_append, List.take_succ_cons, List.map_cons]
      simp [answerRowFor, List.append_assoc]

/-- Every row the loop leaves in the store either was in the accumulator or
carries the single timestamp of the run. -/
theorem processQuestions_created_at (kb : List KnowledgeBaseRow)
    (llm : Nat → Except Unit (Option String)) (mintId : Nat → String)
    (now : String) :
    ∀ (qs : List SecurityQuestionRow) (count : Nat) (acc : List GeneratedAnswerRow),
      (∀ a ∈ acc, a.created_at = now) →
      ∀ a ∈ (processQuestions kb llm mintId now qs count acc).1, a.created_at = now := by
  intro qs
  induction qs with
  | nil =>
    intro count acc hacc a ha
    exact hacc a (by simpa [processQuestions] using ha)
  | cons q rest ih =>
    intro count acc hacc a ha
    rcases hllm : llm count with e | c
    · rw [processQuestions_cons_err hllm] at ha
      exact hacc a ha
    · rw [processQuestions_cons_ok hllm] at ha
      refine ih (count + 1) _ ?_ a ha
      intro b hb
      rcases List.mem_append.mp hb with hb | hb
      · exact hacc b hb
      · rcases List.mem_singleton.mp hb with rfl
        rfl

/-- A fully successful run past its preconditions: the count is the question
count, the knowledge base and questions are untouched, and the answer store
holds exactly the freshly minted rows of this run, one per question in
order. -/
theorem generateRun_ok_spec (db : Db)
    (llm : Nat → Except Unit (Option String)) (mintId : Nat → String) (now : String)
    (hq : db.security_questions ≠ [])
    (hsucc : ∀ k, ∃ c, llm k = Except.ok c) :
    (generateRun db true llm mintId now).2 = Except.ok db.security_questions.length
    ∧ (generateRun db true llm mintId now).1.knowledge_base = db.knowledge_base
    ∧ (generateRun db true llm mintId now).1.security_questions = db.security_questions
    ∧ (generateRun db true llm mintId now).1.generated_answers.map GeneratedAnswerRow.id
        = (List.range db.security_questions.length).map mintId
    ∧ (generateRun db true llm mintId now).1.generated_answers.map GeneratedAnswerRow.question_id
        = db.security_questions.map SecurityQuestionRow.id
    ∧ ∀ a ∈ (generateRun db true llm mintId now).1.generated_answers,
        a.created_at = now := by
  have hne : db.security_questions.isEmpty = false := by
    rcases h : db.security_questions with _ | ⟨x, xs⟩
    · exact absurd h hq
    · rfl
  rcases processQuestions_ok_spec db.knowledge_base llm mintId now hsucc
      db.security_questions 0 [] with ⟨rows, h1, h2, h3, h4⟩
  simp only [List.nil_append, Nat.zero_add] at h1
  have hrun : generateRun db true llm mintId now
      = ({ db with generated_answers := rows },
          Except.ok db.security_questions.length) := by
    simp only [generateRun, hne, if_true, Bool.false_eq_true, if_false, h1]
  refine ⟨by rw [hrun], by rw [hrun], by rw [hrun], ?_, ?_, ?_⟩
  · rw [hrun]
    show rows.map GeneratedAnswerRow.id = _
    rw [h3]
    exact List.map_congr_left (fun i _ => by rw [Nat.zero_add])
  · rw [hrun]
    exact h2
  · rw [hrun]
    exact h4

/-- C1: with a configured credential, a non-empty question list and a
generation service that answers every call, two consecutive runs both report
the question count, leave the knowledge base and question list unchanged,
leave the answer store with exactly one row per question after each run, and
mint the second run its own identifiers: no answer id of the first run
survives into the second (full replace, not a merge). -/
theorem full_replace_regeneration (db : Db)
    (llm1 llm2 : Nat → Except Unit (Option String)) (mintId1 mintId2 : Nat → String)
    (now1 now2 : String)
    (hq : db.security_questions ≠ [])
    (h1 : ∀ k, ∃ c, llm1 k = Except.ok c) (h2 : ∀ k, ∃ c, llm2 k = Except.ok c)
    (hids : ∀ i j, mintId1 i ≠ mintId2 j) :
    (generateRun db true llm1 mintId1 now1).2 = Except.ok db.security_questions.length
    ∧ (generateRun db true llm1 mintId1 now1).1.knowledge_base = db.knowledge_base
    ∧ (generateRun db true llm1 mintId1 now1).1.security_questions = db.security_questions
    ∧ (generateRun db true llm1 mintId1 now1).1.generated_answers.length
        = db.security_questions.length
    ∧ (generateRun (generateRun db true llm1 mintId1 now1).1 true llm2 mintId2 now2).2
        = Except.ok db.security_questions.length
    ∧ (generateRun (generateRun db true llm1 mintId1 now1).1 true llm2 mintId2 now2).1.generated_answers.length
        = db.security_questions.length
    ∧ ∀ a ∈ (generateRun db true llm1 mintId1 now1).1.generated_answers,
      ∀ b ∈ (generateRun (generateRun db true llm1 mintId1 now1).1 true llm2 mintId2 now2).1.generated_answers,
        a.id ≠ b.id := by
  rcases generateRun_ok_spec db llm1 mintId1 now1 hq h1
    with ⟨r1count, r1kb, r1q, r1ids, _, _⟩
  have hq1 : (generateRun db true llm1 mintId1 now1).1.security_questions ≠ [] := by
    rw [r1q]; exact hq
  rcases generateRun_ok_spec (generateRun db true llm1 mintId1 now1).1 llm2 mintId2 now2 hq1 h2
    with ⟨r2count, _, _, r2ids, _, _⟩
  have hlen1 : (generateRun db true llm1 mintId1 now1).1.generated_answers.length
      = db.security_questions.length := by
    have := congrArg List.length r1ids
    simpa using this
  have hlen2 : (generateRun (generateRun db true llm1 mintId1 now1).1 true llm2 mintId2 now2).1.generated_answers.length
      = db.security_questions.length := by
    have := congrArg List.length r2ids
    rw [r1q] at this
    simpa using this
  refine ⟨r1count, r1kb, r1q, hlen1, by rw [r2count, r1q], hlen2, ?_⟩
  intro a ha b hb heq
  have haid : a.id ∈ (List.range db.security_questions.length).map mintId1 := by
    rw [← r1ids]
    exact List.mem_map_of_mem GeneratedAnswerRow.id ha
  have hbid : b.id ∈ (List.range (generateRun db true llm1 mintId1 now1).1.security_questions.length).map mintId2 := by
    rw [← r2ids]
    exact List.mem_map_of_mem GeneratedAnswerRow.id hb
  rcases List.mem_map.mp haid with ⟨i, _, hi⟩
  rcases List.mem_map.mp hbid with ⟨j, _, hj⟩
  exact hids i j (by rw [hi, hj, heq])

/-- C2: with a configured credential, when the generation service fails on
the call for the question at position `j` (0-based) after `j` successful
calls, the run reports the service error and the answer store holds exactly
the rows for the first `j` questions, in order: earlier persisted answers of
the failed run remain, later questions are never persisted. -/
theorem mid_run_failure_persistence (db : Db)
    (llm : Nat → Except Unit (Option String)) (mintId : Nat → String)
    (now : String) (j : Nat)
    (hj : j < db.security_questions.length)
    (hok : ∀ k, k < j → ∃ c, llm k = Except.ok c)
    (hfail : llm j = Except.error ()) :
    (generateRun db true llm mintId now).2 = Except.error GenError.generationServiceError
    ∧ (generateRun db true llm mintId now).1.generated_answers.map GeneratedAnswerRow.question_id
        = (db.security_questions.take j).map SecurityQuestionRow.id
    ∧ (generateRun db true llm mintId now).1.generated_answers.length = j := by
  have hne : db.security_questions.isEmpty = false := by
    rcases h : db.security_questions with _ | ⟨x, xs⟩
    · rw [h] at hj; exact absurd hj (by simp)
    · rfl
  have hspec := processQuestions_fail_spec db.knowledge_base llm mintId now
    db.security_questions j 0 [] hj
    (fun k hk => by simpa using hok k hk)
    (by simpa using hfail)
  rcases hspec with ⟨hmap, herr⟩
  have hrun : generateRun db true llm mintId now
      = ({ db with generated_answers :=
            (processQuestions db.knowledge_base llm mintId now db.security_questions 0 []).1 },
          Except.error GenError.generationServiceError) := by
    simp only [generateRun, hne, if_true, Bool.false_eq_true, if_false, herr]
  have hmap' : (generateRun db true llm mintId now).1.generated_answers.map GeneratedAnswerRow.question_id
      = (db.security_questions.take j).map SecurityQuestionRow.id := by
    rw [hrun]
    show (processQuestions db.knowledge_base llm mintId now db.security_questions 0 []).1.map
        GeneratedAnswerRow.question_id = _
    rw [hmap]
    simp
  refine ⟨by rw [hrun], hmap', ?_⟩
  have := congrArg List.length hmap'
  simpa [Nat.min_eq_left (Nat.le_of_lt hj)] using this

/-- C10: with a configured credential and a non-empty question list, every
row the run leaves in the answer store carries the single timestamp read
before the loop, so any two answers of one run share the same `created_at`
and that column cannot order the answers of a run, whether the run completes
or fails mid-way. -/
theorem single_timestamp_per_run (db : Db)
    (llm : Nat → Except Unit (Option String)) (mintId : Nat → String)
    (now : String) (hq : db.security_questions ≠ []) :
    (∀ a ∈ (generateRun db true llm mintId now).1.generated_answers,
      a.created_at = now)
    ∧ ∀ a ∈ (generateRun db true llm mintId now).1.generated_answers,
      ∀ b ∈ (generateRun db true llm mintId now).1.generated_answers,
        a.created_at = b.created_at := by
  have hne : db.security_questions.isEmpty = false := by
    rcases h : db.security_questions with _ | ⟨x, xs⟩
    · exact absurd h hq
    · rfl
  have hall : ∀ a ∈ (generateRun db true llm mintId now).1.generated_answers,
      a.created_at = now := by
    intro a ha
    have hrow : (generateRun db true llm mintId now).1.generated_answers
        = (processQuestions db.knowledge_base llm mintId now db.security_questions 0 []).1 := by
      simp only [generateRun, hne, if_true, Bool.false_eq_true, if_false]
    rw [hrow] at ha
    exact processQuestions_created_at db.knowledge_base llm mintId now
      db.security_questions 0 [] (by simp) a ha
  exact ⟨hall, fun a ha b hb => by rw [hall a ha, hall b hb]⟩

/-- A second demo security question, stored after `demoQuestion`. -/
def demoQuestionB : SecurityQuestionRow :=
  { id := "q2", text := "Do you have audit logs?", category := none,
    created_at := "t1" }

/-- A third demo security question. -/
def demoQuestionC : SecurityQuestionRow :=
  { id := "q3", text := "Is access reviewed?", category := none,
    created_at := "t2" }

/-- A demo database with one question for witnesses of the orchestrator
claims. -/
def demoDb : Db :=
  { knowledge_base := [], security_questions := [demoQuestion],
    generated_answers := [] }

/-- A demo database with three questions. -/
def demoDb3 : Db :=
  { knowledge_base := [demoScorerRow],
    security_questions := [demoQuestion, demoQuestionB, demoQuestionC],
    generated_answers := [] }

/-- A generation-service oracle that always answers. -/
def demoLlm : Nat → Except Unit (Option String) :=
  fun _ => Except.ok (some "All data is encrypted.")

/-- A generation-service oracle that answers the first call and raises on
every later call. -/
def demoLlmFail : Nat → Except Unit (Option String) :=
  fun k => if k = 0 then Except.ok (some "All data is encrypted.") else Except.error ()

/-- A first id-minting oracle. -/
def demoMint1 : Nat → String := fun _ => "id-a"

/-- A second id-minting oracle, disjoint from the first. -/
def demoMint2 : Nat → String := fun _ => "id-b"

/-- Witness for `full_replace_regeneration` on a one-question database. -/
theorem full_replace_regeneration_witness :
    (demoDb.security_questions ≠ [])
    ∧ (generateRun demoDb true demoLlm demoMint1 "t1").2 = Except.ok 1
    ∧ (generateRun (generateRun demoDb true demoLlm demoMint1 "t1").1 true demoLlm demoMint2 "t2").2
        = Except.ok 1 := by
  have h := full_replace_regeneration demoDb demoLlm demoLlm demoMint1 demoMint2 "t1" "t2"
    (by decide)
    (fun _ => ⟨some "All data is encrypted.", rfl⟩)
    (fun _ => ⟨some "All data is encrypted.", rfl⟩)
    (fun i j => by unfold demoMint1 demoMint2; decide)
  exact ⟨by decide, h.1, h.2.2.2.2.1⟩

/-- Witness for `mid_run_failure_persistence`: 3 questions, the service fails
on the 2nd call, exactly the answer of question 1 is persisted and the run
reports failure. -/
theorem mid_run_failure_persistence_witness :
    (1 < demoDb3.security_questions.length)
    ∧ (generateRun demoDb3 true demoLlmFail demoMint1 "t1").2
        = Except.error GenError.generationServiceError
    ∧ (generateRun demoDb3 true demoLlmFail demoMint1 "t1").1.generated_answers.map
        GeneratedAnswerRow.question_id = ["q1"]
    ∧ (generateRun demoDb3 true demoLlmFail demoMint1 "t1").1.generated_answers.length = 1 := by
  have h := mid_run_failure_persistence demoDb3 demoLlmFail demoMint1 "t1" 1
    (by decide)
    (fun k hk => ⟨some "All data is encrypted.", by
      have hk0 : k = 0 := Nat.lt_one_iff.mp hk
      rw [hk0]
      rfl⟩)
    rfl
  exact ⟨by decide, h.1, h.2.1, h.2.2⟩

/-- Witness for `single_timestamp_per_run` on the one-question database. -/
theorem single_timestamp_per_run_witness :
    (demoDb.security_questions ≠ [])
    ∧ ∀ a ∈ (generateRun demoDb true demoLlm demoMint1 "t1").1.generated_answers,
        a.created_at = "t1" :=
  ⟨by decide, (single_timestamp_per_run demoDb demoLlm demoMint1 "t1" (by decide)).1⟩
